import Mathlib

/-!
Verification of the `auto_phylip` module: a shallow embedding of its
sequence-table-to-PHYLIP converter and its PHYLIP command-script builders,
with theorems settling the specification's claims about them.

Conventions of the embedding:
  * Python strings are Lean `String`s; Python character slicing is done on
    `String.data` (a `List Char`), matching Python's code-point semantics.
  * Python exceptions become `Except`/`Option` results: an `.error`/`none`
    result means the source raised before writing any output file (in the
    source, every `raise` relevant here happens before any `open(..., 'wb')`).
  * Python `int` becomes `Int`; `str(i)` becomes `toString i`.
  * A tabfile row (a Python dict) becomes an association list from column
    name to cell value; `dict[k]`/`dict.get(k)` become an `Option`-valued
    lookup.
-/

/-- A tabfile row: association list from column name to cell value,
mirroring the dicts produced by `csv.DictReader`. -/
abbrev Entry := List (String × String)

/-- `dict.get(col)` / `dict[col]`: first binding of the column, if any. -/
def entryGet (e : Entry) (c : String) : Option String :=
  e.lookup c

/-- Python `s[-n:]`: the last `n` characters of `s`, or all of `s` when it is
shorter than `n` characters (negative indices clamp). -/
def pyLastChars (n : Nat) (s : String) : String :=
  String.mk (s.data.drop (s.data.length - n))

/-- `_entry2seqpair` (auto_phylip.py): pair the last 9 characters of the
identifier column with the sequence column. `none` models the `KeyError`
raised when either column is missing. The column names are the module-level
`id_col`/`seq_col` globals, passed here explicitly. -/
def _entry2seqpair (id_col seq_col : String) (e : Entry) :
    Option (String × String) := do
  let i ← entryGet e id_col
  let s ← entryGet e seq_col
  pure (pyLastChars 9 i, s)

/-- The list comprehension `[_entry2seqpair(entry) for entry in lst_dict_entries]`:
fails (KeyError) as soon as one entry lacks a needed column. -/
def entries2seqpairs (id_col seq_col : String) :
    List Entry → Option (List (String × String))
  | [] => some []
  | e :: rest => do
      let p ← _entry2seqpair id_col seq_col e
      let ps ← entries2seqpairs id_col seq_col rest
      pure (p :: ps)

/-- The germline prepend in `lst_entries2phy`:
`if germline: lst_seqpair = [('Germline', germline)] + lst_seqpair`.
Python truthiness: `None` and the empty string do not prepend. -/
def germPrepend (germline : Option String) (ps : List (String × String)) :
    List (String × String) :=
  match germline with
  | some g => if g = "" then ps else ("Germline", g) :: ps
  | none => ps

/-- The full sequence-pair list built by `lst_entries2phy` before validation:
extracted pairs, optionally with the germline record prepended. -/
def phy_pairs (id_col seq_col : String) (entries : List Entry)
    (germline : Option String) : Option (List (String × String)) :=
  (entries2seqpairs id_col seq_col entries).map (germPrepend germline)

/-- Python `str.ljust(w, ' ')`: pad on the right with spaces to width `w`
(strings already at least `w` characters long are unchanged). -/
def ljust (s : String) (w : Nat) : String :=
  s ++ String.mk (List.replicate (w - s.data.length) ' ')

/-- `_phyrow` (auto_phylip.py): one line of a `*.phy` file, the name
left-justified in a 10-column field, then the sequence, then a newline. -/
def _phyrow (name sequence : String) : String :=
  ljust name 10 ++ sequence ++ "\n"

/-- The exceptions `lst_entries2phy` can raise, all before the output file
is opened. -/
inductive PhyError
  | keyError
  | noMatches
  | lengthMismatch
deriving DecidableEq, Repr

/-- `lst_entries2phy` (auto_phylip.py): validate the pair list and produce the
full text of the PHYLIP output file. Raises (returns `.error`) without writing
anything when a column is missing, when the pair list is empty, or when some
sequence length differs from the first pair's sequence length; the source
opens `outfile` only after these checks. -/
def lst_entries2phy (id_col seq_col : String) (entries : List Entry)
    (germline : Option String) : Except PhyError String :=
  match phy_pairs id_col seq_col entries germline with
  | none => .error .keyError
  | some [] => .error .noMatches
  | some (p :: rest) =>
      let len_seq := p.2.data.length
      if (p :: rest).all (fun q => q.2.data.length = len_seq) then
        .ok (_phyrow (toString (p :: rest).length) (toString len_seq)
             ++ String.join ((p :: rest).map (fun q => _phyrow q.1 q.2)))
      else .error .lengthMismatch

/-- `_get_phy_opts` (auto_phylip.py): the stdin token list for the tree-search
program. `bootstrap = 0` models the falsy defaults (`False`/`None`); in
`run_phylip` a truthy `bootstrap` is the replicate count. `fname_tree` is only
consulted in user-tree mode (`search = false`), where callers always supply
it. -/
def _get_phy_opts (fname : String) (seed jumble bootstrap : Int)
    (search : Bool) (fname_tree : String) : List String :=
  [fname]
  ++ (if search then ["S", "Y"] else ["U"])
  ++ (if bootstrap = 0 then ["I"] else [])
  ++ (if bootstrap = 0 then []
      else ["M", "D", toString bootstrap, toString seed, toString jumble])
  ++ ["4", "5", "."]
  ++ ["Y"]
  ++ (if search then [] else [fname_tree, toString seed])

/-- The token sequence the spec sentence describes, read literally: in
user-tree mode `U` is followed immediately by the tree filename and the seed,
and both appear again after the confirming `Y`. Written from the spec's
words, to be compared with `_get_phy_opts`. -/
def phy_opts_claimed (fname : String) (seed jumble bootstrap : Int)
    (search : Bool) (fname_tree : String) : List String :=
  [fname]
  ++ (if search then ["S", "Y"] else ["U", fname_tree, toString seed])
  ++ (if bootstrap = 0 then ["I"]
      else ["M", "D", toString bootstrap, toString seed, toString jumble])
  ++ ["4", "5", "."]
  ++ ["Y"]
  ++ (if search then [] else [fname_tree, toString seed])

/-- The amended token sequence: in user-tree mode only `U` is emitted at the
search step, and the tree filename and seed appear exactly once, after the
confirming `Y`. Written from the amended claim's words, to be compared with
`_get_phy_opts`. -/
def phy_opts_amended (fname : String) (seed jumble bootstrap : Int)
    (search : Bool) (fname_tree : String) : List String :=
  [fname]
  ++ (if search then ["S", "Y"] else ["U"])
  ++ (if bootstrap = 0 then ["I"]
      else ["M", "D", toString bootstrap, toString seed, toString jumble])
  ++ ["4", "5", "."]
  ++ ["Y"]
  ++ (if search then [] else [fname_tree, toString seed])

/-- `_get_seqboot_opts` (auto_phylip.py): the stdin token list for the
resampling program. -/
def _get_seqboot_opts (fname : String) (n_bootstrap : Int) (weights : Bool)
    (seed : Int) : List String :=
  [fname, "R", toString n_bootstrap]
  ++ (if weights then ["W"] else [])
  ++ ["Y", toString seed]

/-- `_get_consense_opts` (auto_phylip.py): the stdin token list for the
consensus program, or the `ValueError` (`ConfigurationError` in the spec's
taxonomy) message for an unrecognized `type`. Each of the four recognized
types adds no token between the filename and the confirming `Y`. -/
def _get_consense_opts (fname : String) (cons_type : String) :
    Except String (List String) :=
  if cons_type = "mre" then .ok [fname, "Y"]
  else if cons_type = "strict" then .ok [fname, "Y"]
  else if cons_type = "mr" then .ok [fname, "Y"]
  else if cons_type = "ml" then .ok [fname, "Y"]
  else .error ("Invalid consensus type " ++ cons_type)

/-- The externally observable stages of `run_consense` (auto_phylip.py),
in the order the source performs them: `_get_consense_opts` runs first, so an
invalid `type` aborts before any stage, in particular before the external
process is launched. -/
inductive ConsenseEvent
  | clearedFiles
  | wroteCmdfile
  | launchedProcess
  | renamedOutputs
deriving DecidableEq, Repr

/-- `run_consense` (auto_phylip.py), abstracted to its stage trace: an
invalid consensus `type` propagates the error with no stage performed. -/
def run_consense_events (fname cons_type : String) :
    Except String (List ConsenseEvent) :=
  match _get_consense_opts fname cons_type with
  | .error e => .error e
  | .ok _ => .ok [.clearedFiles, .wroteCmdfile, .launchedProcess,
                  .renamedOutputs]

/-- `write_cmdfile` (auto_phylip.py): the text written to the scratch command
file. Every token but the last is followed by a newline; the last is written
bare. The `trailing_nl` parameter is accepted but never consulted by the
source's body. `none` models the `IndexError` on an empty token list. -/
def write_cmdfile_content (opts : List String) (trailing_nl : Bool) :
    Option String :=
  match opts.getLast? with
  | none => none
  | some last =>
      some (String.join (opts.dropLast.map (fun a => a ++ "\n")) ++ last)

/-- The command-file text as the spec describes it for the tree-search and
resampling programs: one token per line, the final token's trailing newline
omitted. Written from the spec's words, to be compared with
`write_cmdfile_content`. -/
def spec_cmd_content : List String → String
  | [] => ""
  | [a] => a
  | a :: rest => a ++ "\n" ++ spec_cmd_content rest

/-- `_filter_match` (auto_phylip.py): keep the entries of one pass whose
`tm.1` column value is matched by the compiled regex of `tm.2`. The regex
engine is abstracted as `re_match pattern flags text`, denoting the truth of
Python's `re.compile(pattern, flags).match(text)` — an anchored-at-start,
not-necessarily-full match. `none` models the `TypeError` raised when an
examined entry lacks the column (`entry.get` returns `None`). -/
def _filter_match (re_match : String → Int → String → Bool) (flags : Int)
    (tm : String × String) : List Entry → Option (List Entry)
  | [] => some []
  | e :: rest => do
      let keep ← (entryGet e tm.1).map (re_match tm.2 flags)
      let tail ← _filter_match re_match flags tm rest
      pure (if keep then e :: tail else tail)

/-- `_filter_entries` (auto_phylip.py): an empty `match` list returns the
entries unchanged; otherwise each `(column, pattern)` pair is applied as one
filtering pass, in the order given. -/
def _filter_entries (re_match : String → Int → String → Bool) (flags : Int) :
    List (String × String) → List Entry → Option (List Entry)
  | [], entries => some entries
  | tm :: rest, entries => do
      let filtered ← _filter_match re_match flags tm entries
      _filter_entries re_match flags rest filtered

/-- One entry satisfies one `(column, pattern)` filter: the column is present
and its value is matched by the pattern. -/
def entryMatches (re_match : String → Int → String → Bool) (flags : Int)
    (tm : String × String) (e : Entry) : Bool :=
  ((entryGet e tm.1).map (re_match tm.2 flags)).getD false

/-- The tail of a character list after discarding `n` leading lines, where a
line ends at a newline character (or at end of input): what remains of a file
after `n` calls of Python's `readline`. -/
def dropLinesChars : Nat → List Char → List Char
  | 0, cs => cs
  | n + 1, cs =>
      match cs.dropWhile (fun c => c ≠ '\n') with
      | [] => []
      | _ :: rest => dropLinesChars n rest

/-- File content with its first `n` lines stripped. -/
def stripContent (n : Nat) (content : String) : String :=
  String.mk (dropLinesChars n content.data)

/-- `_strip_first_lines` (auto_phylip.py), over a filesystem modelled as a
map from filename to content. When the output name (defaulting to
`fname_in`) differs from the input name, the output file is rewritten with
the stripped content of the input file (`none` models the `IOError` when the
input file does not exist); when the two names are equal the body's guard
skips the copy entirely and the filesystem is untouched. Returns the new
filesystem and the returned output filename. -/
def _strip_first_lines (fs : String → Option String) (fname_in : String)
    (fname_out : Option String) (n_lines : Nat) :
    Option ((String → Option String) × String) :=
  let fout := fname_out.getD fname_in
  if fname_in ≠ fout then
    (fs fname_in).map (fun content =>
      (fun f => if f = fout then some (stripContent n_lines content)
                else fs f,
       fout))
  else
    some (fs, fout)

/-- The two-record table of the spec's worked example, in rev-0 headers. -/
def exampleTable : List Entry :=
  [[("SEQUENCE_ID", "clone0000001"), ("SEQUENCE", "ACGT")],
   [("SEQUENCE_ID", "clone0000002"), ("SEQUENCE", "ACGA")]]

/-- A table whose two sequences have lengths 4 and 5. -/
def mixedTable : List Entry :=
  [[("SEQUENCE_ID", "id1"), ("SEQUENCE", "ACGT")],
   [("SEQUENCE_ID", "id2"), ("SEQUENCE", "ACGTA")]]

theorem entries2seqpairs_length (id_col seq_col : String) :
    ∀ (entries : List Entry) (ps : List (String × String)),
      entries2seqpairs id_col seq_col entries = some ps →
      ps.length = entries.length := by
  intro entries
  induction entries with
  | nil =>
      intro ps h
      simp only [entries2seqpairs] at h
      injection h with h'
      subst h'
      rfl
  | cons e rest ih =>
      intro ps h
      simp only [entries2seqpairs, Option.bind_eq_bind, Option.bind_eq_some]
        at h
      obtain ⟨p, _, h2⟩ := h
      obtain ⟨ps', hps', h3⟩ := h2
      simp only [Option.pure_def, Option.some.injEq] at h3
      subst h3
      simp [ih ps' hps']

theorem foldl_append_init (l : List String) :
    ∀ (a b : String),
      l.foldl (· ++ ·) (a ++ b) = a ++ l.foldl (· ++ ·) b := by
  induction l with
  | nil => intro a b; rfl
  | cons c t ih =>
      intro a b
      simp only [List.foldl_cons, String.append_assoc, ih]

theorem join_cons (s : String) (l : List String) :
    String.join (s :: l) = s ++ String.join l := by
  show List.foldl (· ++ ·) ("" ++ s) l = s ++ List.foldl (· ++ ·) "" l
  rw [String.empty_append]
  conv_lhs => rw [← String.append_empty s]
  rw [foldl_append_init]

theorem spec_cmd_content_cons2 (a c : String) (t : List String) :
    spec_cmd_content (a :: c :: t) = a ++ "\n" ++ spec_cmd_content (c :: t) :=
  rfl

theorem join_dropLast_getLast :
    ∀ (a : String) (rest : List String),
      String.join (((a :: rest).dropLast).map (fun t => t ++ "\n"))
          ++ (a :: rest).getLast (by simp)
        = spec_cmd_content (a :: rest) := by
  intro a rest
  induction rest generalizing a with
  | nil => simp [spec_cmd_content, String.join]
  | cons c t ih =>
      rw [List.dropLast_cons₂, List.map_cons, join_cons,
        List.getLast_cons (by simp), String.append_assoc, ih c,
        spec_cmd_content_cons2, String.append_assoc]

theorem filter_match_eq (re_match : String → Int → String → Bool)
    (flags : Int) (tm : String × String) :
    ∀ (entries : List Entry),
      (∀ e ∈ entries, (entryGet e tm.1).isSome) →
      _filter_match re_match flags tm entries
        = some (entries.filter (entryMatches re_match flags tm)) := by
  intro entries
  induction entries with
  | nil => intro _; rfl
  | cons e rest ih =>
      intro h
      obtain ⟨v, hv⟩ := Option.isSome_iff_exists.mp (h e (by simp))
      have hrest := ih (fun e' he' => h e' (by simp [he']))
      by_cases hk : re_match tm.2 flags v = true <;>
        simp [_filter_match, hv, hrest, entryMatches, List.filter_cons, hk]

theorem filter_entries_eq (re_match : String → Int → String → Bool)
    (flags : Int) :
    ∀ (mtch : List (String × String)) (entries : List Entry),
      (∀ e ∈ entries, ∀ tm ∈ mtch, (entryGet e tm.1).isSome) →
      _filter_entries re_match flags mtch entries
        = some (entries.filter
            (fun e => mtch.all (fun tm => entryMatches re_match flags tm e)))
  | [], entries, _ => by simp [_filter_entries]
  | tm :: rest, entries, h => by
      have h1 : ∀ e ∈ entries, (entryGet e tm.1).isSome :=
        fun e he => h e he tm (by simp)
      have h2 : ∀ e ∈ entries.filter (entryMatches re_match flags tm),
          ∀ tm' ∈ rest, (entryGet e tm'.1).isSome :=
        fun e he tm' htm' => h e (List.mem_of_mem_filter he) tm' (by simp [htm'])
      have hrec :=
        filter_entries_eq re_match flags rest
          (entries.filter (entryMatches re_match flags tm)) h2
      simp only [_filter_entries, filter_match_eq re_match flags tm entries h1,
        Option.bind_eq_bind, Option.some_bind, hrec, List.filter_filter,
        Option.some.injEq]
      apply List.filter_congr
      intro e _
      simp [List.all_cons, Bool.and_comm]

/-- C1 (counterexample): in user-tree mode (`search = false`) the builder does
NOT place the tree filename and the seed right after `U`, as the claim's
token sequence states; it emits only `U` there. At the concrete invocation
used by `cleanup_consense` (no bootstrap, user tree) the built list differs
from the claimed list. -/
theorem phy_opts_user_tree_counterexample :
    _get_phy_opts "f.phy" 9 1 0 false "t.tree"
      ≠ phy_opts_claimed "f.phy" 9 1 0 false "t.tree" := by
  decide

/-- C1 (amended): the tree-search command-script builder produces exactly:
the filename; `S`,`Y` in automatic-search mode, or just `U` in user-tree
mode; `I` if not bootstrapping, else `M`,`D`, replicate count, seed, jumble
count; `4`,`5`,`.`; `Y`; and, only in user-tree mode, the tree filename and
seed — once, at the end. Every bootstrap-mode script contains the
replicate-count and seed tokens (and `M` and `D`); every non-bootstrap script
contains neither `M` nor `D`, provided none of the filename, tree-filename,
or seed tokens is itself the string `M` or `D`. -/
theorem phy_opts_amended_correct (fname fname_tree : String)
    (seed jumble bootstrap : Int) (search : Bool)
    (hf1 : fname ≠ "M") (hf2 : fname ≠ "D")
    (ht1 : fname_tree ≠ "M") (ht2 : fname_tree ≠ "D")
    (hs1 : toString seed ≠ "M") (hs2 : toString seed ≠ "D") :
    _get_phy_opts fname seed jumble bootstrap search fname_tree
      = phy_opts_amended fname seed jumble bootstrap search fname_tree
    ∧ (bootstrap ≠ 0 →
        toString bootstrap
            ∈ _get_phy_opts fname seed jumble bootstrap search fname_tree
        ∧ toString seed
            ∈ _get_phy_opts fname seed jumble bootstrap search fname_tree
        ∧ "M" ∈ _get_phy_opts fname seed jumble bootstrap search fname_tree
        ∧ "D" ∈ _get_phy_opts fname seed jumble bootstrap search fname_tree)
    ∧ (bootstrap = 0 →
        "M" ∉ _get_phy_opts fname seed jumble bootstrap search fname_tree
        ∧ "D" ∉ _get_phy_opts fname seed jumble bootstrap search fname_tree) := by
  refine ⟨?_, ?_, ?_⟩
  · by_cases hb : bootstrap = 0 <;>
      simp [_get_phy_opts, phy_opts_amended, hb]
  · intro hb
    cases search <;> simp [_get_phy_opts, hb]
  · intro hb
    have hf1' := Ne.symm hf1
    have hf2' := Ne.symm hf2
    have ht1' := Ne.symm ht1
    have ht2' := Ne.symm ht2
    have hs1' := Ne.symm hs1
    have hs2' := Ne.symm hs2
    cases search <;>
      simp [_get_phy_opts, hb, hf1', hf2', ht1', ht2', hs1', hs2']

/-- C1 (witness): the amended theorem applied at a concrete bootstrap-mode
invocation. -/
theorem phy_opts_amended_correct_witness :
    toString (100 : Int) ∈ _get_phy_opts "f.phy" 9 1 100 true "t.tree"
    ∧ toString (9 : Int) ∈ _get_phy_opts "f.phy" 9 1 100 true "t.tree"
    ∧ "M" ∈ _get_phy_opts "f.phy" 9 1 100 true "t.tree"
    ∧ "D" ∈ _get_phy_opts "f.phy" 9 1 100 true "t.tree" :=
  (phy_opts_amended_correct "f.phy" "t.tree" 9 1 100 true
    (by decide) (by decide) (by decide) (by decide) (by decide)
    (by decide)).2.1 (by decide)

/-- C2 (counterexample): the consensus program's command script does NOT keep
a trailing newline after its final token. `run_consense` builds the options
`[fname, "Y"]` and calls `write_cmdfile` with its default, and `write_cmdfile`
writes the last token bare, so the scratch file for a `mre` consensus run on
`boots.tree` ends in `Y`, not in `Y` plus a newline. -/
theorem consense_trailing_newline_counterexample :
    _get_consense_opts "boots.tree" "mre" = .ok ["boots.tree", "Y"]
    ∧ write_cmdfile_content ["boots.tree", "Y"] false = some "boots.tree\nY"
    ∧ write_cmdfile_content ["boots.tree", "Y"] false
        ≠ some ("boots.tree\nY" ++ "\n") := by
  refine ⟨by rfl, by decide, by decide⟩

/-- C2 (amended): for every non-empty token list and either value of the
(ignored) `trailing_nl` flag, the command file holds one token per line with
the final token's trailing newline omitted — for the consensus program's
script just as for the tree-search and resampling programs' scripts. -/
theorem write_cmdfile_one_token_per_line (opts : List String) (b : Bool)
    (h : opts ≠ []) :
    write_cmdfile_content opts b = some (spec_cmd_content opts) := by
  match opts with
  | [] => exact absurd rfl h
  | a :: rest =>
      rw [write_cmdfile_content,
        List.getLast?_eq_getLast (a :: rest) (by simp)]
      exact congrArg some (join_dropLast_getLast a rest)

/-- C2 (witness): the amended theorem applied to the resampling script of a
concrete `run_seqboot` invocation. -/
theorem write_cmdfile_one_token_per_line_witness :
    write_cmdfile_content (_get_seqboot_opts "f.phy" 100 false 9) false
      = some "f.phy\nR\n100\nY\n9" :=
  (write_cmdfile_one_token_per_line
    (_get_seqboot_opts "f.phy" 100 false 9) false (by decide)).trans
    (by decide)

/-- C3: an unrecognized consensus `type` outside the four named values makes
`run_consense` propagate the configuration error with no stage performed —
in particular before the external process is launched — while each of the
four named values is accepted and produces exactly `[fname, "Y"]`, i.e. adds
no token. -/
theorem consense_invalid_type_rejected (fname cons_type : String)
    (h1 : cons_type ≠ "mre") (h2 : cons_type ≠ "strict")
    (h3 : cons_type ≠ "mr") (h4 : cons_type ≠ "ml") :
    run_consense_events fname cons_type
      = .error ("Invalid consensus type " ++ cons_type)
    ∧ _get_consense_opts fname "mre" = .ok [fname, "Y"]
    ∧ _get_consense_opts fname "strict" = .ok [fname, "Y"]
    ∧ _get_consense_opts fname "mr" = .ok [fname, "Y"]
    ∧ _get_consense_opts fname "ml" = .ok [fname, "Y"] := by
  refine ⟨?_, by simp [_get_consense_opts], by simp [_get_consense_opts],
    by simp [_get_consense_opts], by simp [_get_consense_opts]⟩
  simp [run_consense_events, _get_consense_opts, h1, h2, h3, h4]

/-- C3 (witness): the theorem applied at the spec's example, consensus type
`"unknown"`. -/
theorem consense_invalid_type_rejected_witness :
    run_consense_events "boots.tree" "unknown"
      = .error ("Invalid consensus type " ++ "unknown")
    ∧ _get_consense_opts "boots.tree" "mre" = .ok ["boots.tree", "Y"]
    ∧ _get_consense_opts "boots.tree" "strict" = .ok ["boots.tree", "Y"]
    ∧ _get_consense_opts "boots.tree" "mr" = .ok ["boots.tree", "Y"]
    ∧ _get_consense_opts "boots.tree" "ml" = .ok ["boots.tree", "Y"] :=
  consense_invalid_type_rejected "boots.tree" "unknown"
    (by decide) (by decide) (by decide) (by decide)

/-- C4 (counterexample): converting the spec's two-record example table
yields identifiers `ne0000001`/`ne0000002` — the last NINE characters of
`clone0000001`/`clone0000002` — not the claimed eight-character
`e0000001`/`e0000002`. -/
theorem example_table_names_counterexample :
    entries2seqpairs "SEQUENCE_ID" "SEQUENCE" exampleTable
      = some [("ne0000001", "ACGT"), ("ne0000002", "ACGA")]
    ∧ entries2seqpairs "SEQUENCE_ID" "SEQUENCE" exampleTable
      ≠ some [("e0000001", "ACGT"), ("e0000002", "ACGA")] := by
  refine ⟨by rfl, by decide⟩

/-- C4 (amended): converting the two-record example table with no germline
and no filter produces the alignment
`[("ne0000001","ACGT"), ("ne0000002","ACGA")]` and the serialized file
`"2         4\n"` (record count left-justified in a 10-column field, then
the sequence length) followed by one line per record of the name padded to
10 columns and the raw sequence. -/
theorem example_table_conversion :
    entries2seqpairs "SEQUENCE_ID" "SEQUENCE" exampleTable
      = some [("ne0000001", "ACGT"), ("ne0000002", "ACGA")]
    ∧ lst_entries2phy "SEQUENCE_ID" "SEQUENCE" exampleTable none
      = .ok ("2         4\n" ++ "ne0000001 ACGT\n" ++ "ne0000002 ACGA\n") := by
  refine ⟨by rfl, by rfl⟩

/-- C5: whenever a (non-empty) germline sequence is supplied and the table's
records extract successfully, the first record of the produced alignment is
literally `Germline` with that sequence — regardless of the table's order —
and the header's record count is the number of table-derived records plus
one. -/
theorem germline_first_record (id_col seq_col g : String)
    (entries : List Entry) (ps : List (String × String))
    (hg : g ≠ "")
    (hmap : entries2seqpairs id_col seq_col entries = some ps)
    (hlen : (("Germline", g) :: ps).all
        (fun q => q.2.data.length = g.data.length) = true) :
    phy_pairs id_col seq_col entries (some g)
      = some (("Germline", g) :: ps)
    ∧ lst_entries2phy id_col seq_col entries (some g)
        = .ok (_phyrow (toString (entries.length + 1))
              (toString g.data.length)
            ++ String.join ((("Germline", g) :: ps).map
                (fun q => _phyrow q.1 q.2))) := by
  have hpp : phy_pairs id_col seq_col entries (some g)
      = some (("Germline", g) :: ps) := by
    simp [phy_pairs, hmap, germPrepend, hg]
  have hcount := entries2seqpairs_length id_col seq_col entries ps hmap
  refine ⟨hpp, ?_⟩
  have hlen' : ∀ q ∈ ps, q.2.data.length = g.data.length := by
    intro q hq
    simpa using List.all_eq_true.mp hlen q (List.mem_cons_of_mem _ hq)
  simp [lst_entries2phy, hpp, hlen, hcount]
  intro a b hab
  exact hlen' (a, b) hab

/-- C5 (witness): the theorem applied at the spec's example — two records
plus germline `"ACGT"`, count 3. -/
theorem germline_first_record_witness :
    phy_pairs "SEQUENCE_ID" "SEQUENCE" exampleTable (some "ACGT")
      = some (("Germline", "ACGT")
          :: [("ne0000001", "ACGT"), ("ne0000002", "ACGA")])
    ∧ lst_entries2phy "SEQUENCE_ID" "SEQUENCE" exampleTable (some "ACGT")
      = .ok (_phyrow (toString (exampleTable.length + 1))
            (toString "ACGT".data.length)
          ++ String.join ((("Germline", "ACGT")
              :: [("ne0000001", "ACGT"), ("ne0000002", "ACGA")]).map
              (fun q => _phyrow q.1 q.2))) :=
  germline_first_record "SEQUENCE_ID" "SEQUENCE" "ACGT" exampleTable
    [("ne0000001", "ACGT"), ("ne0000002", "ACGA")]
    (by decide) (by rfl) (by decide)

/-- C6 (counterexample): a conversion whose filtered record set is empty does
NOT fail when a germline sequence is supplied — the germline record alone
makes the pair list non-empty, so the converter succeeds and produces a
one-record file. -/
theorem empty_filtered_with_germline_counterexample :
    lst_entries2phy "SEQUENCE_ID" "SEQUENCE" [] (some "ACGT")
      = .ok "1         4\nGermline  ACGT\n"
    ∧ lst_entries2phy "SEQUENCE_ID" "SEQUENCE" [] (some "ACGT")
      ≠ .error .noMatches := by
  have h : lst_entries2phy "SEQUENCE_ID" "SEQUENCE" [] (some "ACGT")
      = .ok "1         4\nGermline  ACGT\n" := rfl
  exact ⟨h, by rw [h]; exact fun hc => Except.noConfusion hc⟩

/-- C6 (amended): a conversion whose filtered record set is empty and which
supplies no (non-empty) germline sequence fails with the no-matches error
(`ValueError('No matches found.')`, the spec's `NoMatchesError`); the error
is raised before the output file is opened, so nothing is written. -/
theorem empty_filtered_no_germline_error (id_col seq_col : String)
    (germline : Option String)
    (h : germline = none ∨ germline = some "") :
    lst_entries2phy id_col seq_col [] germline = .error .noMatches := by
  rcases h with h | h <;> subst h <;> rfl

/-- C6 (witness): the amended theorem applied with no germline. -/
theorem empty_filtered_no_germline_error_witness :
    lst_entries2phy "SEQUENCE_ID" "SEQUENCE" [] none
      = .error .noMatches :=
  empty_filtered_no_germline_error "SEQUENCE_ID" "SEQUENCE" none (Or.inl rfl)

/-- C7: whenever the built pair list has a record whose sequence length
differs from the first record's sequence length, the converter raises the
length-mismatch error (`ValueError('Not all sequences are of the same
length.')`, the spec's `SequenceLengthMismatchError`/`AlignmentError`); the
error is raised before the output file is opened, so nothing is written. -/
theorem length_mismatch_raises (id_col seq_col : String)
    (entries : List Entry) (germline : Option String)
    (p : String × String) (rest : List (String × String))
    (hp : phy_pairs id_col seq_col entries germline = some (p :: rest))
    (hbad : (p :: rest).all (fun q => q.2.data.length = p.2.data.length)
        = false) :
    lst_entries2phy id_col seq_col entries germline
      = .error .lengthMismatch := by
  simp only [lst_entries2phy, hp]
  rw [if_neg (fun hc => by rw [hbad] at hc; exact Bool.false_ne_true hc)]

/-- C7 (witness): the theorem applied at the spec's example, a table mixing
sequences of lengths 4 and 5. -/
theorem length_mismatch_raises_witness :
    lst_entries2phy "SEQUENCE_ID" "SEQUENCE" mixedTable none
      = .error .lengthMismatch :=
  length_mismatch_raises "SEQUENCE_ID" "SEQUENCE" mixedTable none
    ("id1", "ACGT") [("id2", "ACGTA")] (by rfl) (by decide)

/-- C8: filtering composes the `(column, pattern)` filters as a logical AND
in the order given — the result keeps exactly the entries whose designated
column value is matched by every pattern (via the anchored-at-start,
not-full `re.match`, abstracted as `re_match`) — and an empty filter list
returns the entries unchanged, in their original order. -/
theorem filter_retains_exactly_matching
    (re_match : String → Int → String → Bool) (flags : Int)
    (mtch : List (String × String)) (entries : List Entry)
    (h : ∀ e ∈ entries, ∀ tm ∈ mtch, (entryGet e tm.1).isSome) :
    _filter_entries re_match flags mtch entries
      = some (entries.filter
          (fun e => mtch.all (fun tm => entryMatches re_match flags tm e)))
    ∧ _filter_entries re_match flags [] entries = some entries :=
  ⟨filter_entries_eq re_match flags mtch entries h, rfl⟩

/-- C8 (witness): the theorem applied with a literal-prefix matcher (the
anchored semantics of `re.match` on a metacharacter-free pattern) keeping
exactly the record whose identifier starts with `clone0000001`. -/
theorem filter_retains_exactly_matching_witness :
    _filter_entries (fun pat _ text => pat.data.isPrefixOf text.data) 0
        [("SEQUENCE_ID", "clone0000001")] exampleTable
      = some [[("SEQUENCE_ID", "clone0000001"), ("SEQUENCE", "ACGT")]] :=
  (filter_retains_exactly_matching
      (fun pat _ text => pat.data.isPrefixOf text.data) 0
      [("SEQUENCE_ID", "clone0000001")] exampleTable (by decide)).1.trans
    (by decide)

/-- C9: the output row's identifier is the last 9 characters of the source
identifier — a suffix of length `min 9 (length of the identifier)` — and an
identifier shorter than 9 characters is used unchanged. -/
theorem seqpair_identifier_last_nine (id_col seq_col : String) (e : Entry)
    (i s : String)
    (hi : entryGet e id_col = some i) (hs : entryGet e seq_col = some s) :
    _entry2seqpair id_col seq_col e = some (pyLastChars 9 i, s)
    ∧ (pyLastChars 9 i).data.length = min 9 i.data.length
    ∧ i.data.take (i.data.length - 9) ++ (pyLastChars 9 i).data = i.data
    ∧ (i.data.length ≤ 9 → pyLastChars 9 i = i) := by
  refine ⟨by simp [_entry2seqpair, hi, hs], ?_, ?_, ?_⟩
  · show (i.data.drop (i.data.length - 9)).length = min 9 i.data.length
    rw [List.length_drop]
    omega
  · exact List.take_append_drop _ _
  · intro hle
    show String.mk (i.data.drop (i.data.length - 9)) = i
    rw [Nat.sub_eq_zero_of_le hle, List.drop_zero]

/-- C9 (witness): the theorem applied at the example table's first record,
whose 12-character identifier keeps only its last 9 characters. -/
theorem seqpair_identifier_last_nine_witness :
    _entry2seqpair "SEQUENCE_ID" "SEQUENCE"
        [("SEQUENCE_ID", "clone0000001"), ("SEQUENCE", "ACGT")]
      = some (pyLastChars 9 "clone0000001", "ACGT")
    ∧ (pyLastChars 9 "clone0000001").data.length
        = min 9 "clone0000001".data.length
    ∧ "clone0000001".data.take ("clone0000001".data.length - 9)
        ++ (pyLastChars 9 "clone0000001").data = "clone0000001".data
    ∧ ("clone0000001".data.length ≤ 9 →
        pyLastChars 9 "clone0000001" = "clone0000001") :=
  seqpair_identifier_last_nine "SEQUENCE_ID" "SEQUENCE"
    [("SEQUENCE_ID", "clone0000001"), ("SEQUENCE", "ACGT")]
    "clone0000001" "ACGT" (by rfl) (by rfl)

/-- C10: when the output filename equals the input filename — in particular
when it is not supplied, which defaults it to the input filename —
`_strip_first_lines` performs no write at all: the filesystem is returned
unchanged (every file's contents untouched), and only the filename is
returned. -/
theorem strip_first_lines_same_name_noop (fs : String → Option String)
    (fname : String) (n : Nat) :
    _strip_first_lines fs fname none n = some (fs, fname)
    ∧ _strip_first_lines fs fname (some fname) n = some (fs, fname) := by
  constructor <;> simp [_strip_first_lines]
